import Mathlib

/-!
Verification of the streaming TTS protocol engine (`edge-tts` React Native
port).  The definitions below are a shallow embedding of the source:

- `src/drm.ts` — clock-skew registry and `Sec-MS-GEC` token generation;
- `communicate.ts` — frame decoding (`getHeadersAndDataFromText`,
  `getHeadersAndDataFromBinary`), metadata parsing (`parseMetadata`),
  binary audio handling (`processBinaryData`), the per-sub-session message
  loop of `_stream` (modelled by `runSession`), and the one-shot guard of
  `stream` (modelled by `streamCall`).

Modelling conventions:
- `Uint8Array` is `List Nat` (entries below 256 for real byte buffers);
- JS numbers are rationals; where NaN can flow (the DRM clock skew) a JS
  number is `JSNum := Option ℚ` with `none` playing NaN.  Infinity is not
  modelled: no operation reachable here produces it from finite inputs.
- JS string indices (`indexOf`, `substring`) are modelled at code-point
  granularity, which agrees with UTF-16 indices on all BMP text;
- header objects are association lists with unique keys; `setHeader`
  overwrites in place like JS property assignment, `getHeader` looks a key
  up, returning `none` for JS `undefined`;
- `JSON.parse` of the metadata body, the `sha256val` helper, the trusted
  client token constant and `new Date(...).getTime()` are platform or
  out-of-tree inputs and enter as explicit parameters.
-/

/-- A finite JS number or NaN (`none`).  The clock-skew code can produce NaN,
so DRM arithmetic is carried out in this type. -/
abbrev JSNum := Option ℚ

/-- JS addition, with NaN absorbing. -/
def jadd : JSNum → JSNum → JSNum
  | some a, some b => some (a + b)
  | _, _ => none

/-- JS subtraction, with NaN absorbing. -/
def jsub : JSNum → JSNum → JSNum
  | some a, some b => some (a - b)
  | _, _ => none

/-- JS multiplication, with NaN absorbing. -/
def jmul : JSNum → JSNum → JSNum
  | some a, some b => some (a * b)
  | _, _ => none

/-- Truncation toward zero, the rounding used by the JS `%` operator. -/
def jsTrunc (q : ℚ) : ℤ :=
  if 0 ≤ q then ⌊q⌋ else ⌈q⌉

/-- JS remainder `a % b` (sign of the dividend, truncated division); `x % 0`
is NaN. -/
def jmod : JSNum → JSNum → JSNum
  | some a, some b => if b = 0 then none else some (a - b * (jsTrunc (a / b) : ℚ))
  | _, _ => none

/-- Rounding of `toFixed(0)`: nearest integer, ties away from zero (the
negative case carries the sign out front as in the ECMA algorithm). -/
def jsRound (q : ℚ) : ℤ :=
  if 0 ≤ q then ⌊q + 1 / 2⌋ else -⌊-q + 1 / 2⌋

/-- JS `toFixed(0)`: decimal rendering of the rounded value, `"NaN"` for NaN.
Every use in this code is at an integer value below 10^21, where `toFixed(0)`
prints the plain decimal integer. -/
def toFixed0 : JSNum → String
  | none => "NaN"
  | some q => toString (jsRound q)

/-- UTF-8 encoding of one scalar value. -/
def utf8EncodeCharM (c : Char) : List Nat :=
  let n := c.toNat
  if n < 128 then [n]
  else if n < 2048 then [192 + n / 64, 128 + n % 64]
  else if n < 65536 then [224 + n / 4096, 128 + (n / 64) % 64, 128 + n % 64]
  else [240 + n / 262144, 128 + (n / 4096) % 64, 128 + (n / 64) % 64, 128 + n % 64]

/-- UTF-8 bytes of a character list (`TextEncoder.encode`). -/
def utf8BytesOfChars (cs : List Char) : List Nat :=
  (cs.map utf8EncodeCharM).flatten

/-- UTF-8 bytes of a string (`TextEncoder.encode`, `BufferUtils.from`). -/
def utf8Bytes (s : String) : List Nat :=
  utf8BytesOfChars s.toList

/-- The U+FFFD replacement character emitted by `TextDecoder` for malformed
byte sequences. -/
def replChar : Char := Char.ofNat 65533

/-- State of the WHATWG streaming UTF-8 decoder: continuation bytes still
needed, the code point accumulated so far, and the admissible range of the
next continuation byte. -/
structure Utf8DecState where
  needed : Nat
  acc : Nat
  lo : Nat
  hi : Nat
deriving DecidableEq

/-- The idle decoder state. -/
def utf8Idle : Utf8DecState := ⟨0, 0, 128, 191⟩

/-- The WHATWG decoder's handling of a byte in the idle state: ASCII is
emitted, a valid lead byte opens a multi-byte sequence (with the tightened
continuation ranges that exclude overlong and surrogate encodings), anything
else is an error emitting U+FFFD. -/
def utf8LeadStep (b : Nat) : List Char × Utf8DecState :=
  if b < 128 then ([Char.ofNat b], utf8Idle)
  else if 194 ≤ b ∧ b ≤ 223 then ([], ⟨1, b - 192, 128, 191⟩)
  else if 224 ≤ b ∧ b ≤ 239 then
    ([], ⟨2, b - 224, if b = 224 then 160 else 128, if b = 237 then 159 else 191⟩)
  else if 240 ≤ b ∧ b ≤ 244 then
    ([], ⟨3, b - 240, if b = 240 then 144 else 128, if b = 244 then 143 else 191⟩)
  else ([replChar], utf8Idle)

/-- One step of the WHATWG UTF-8 decoder: a continuation byte outside the
admissible range emits U+FFFD and reprocesses the byte as a fresh lead
(the algorithm's "restore byte to stream"). -/
def utf8Step (st : Utf8DecState) (b : Nat) : List Char × Utf8DecState :=
  if st.needed = 0 then utf8LeadStep b
  else if b < st.lo ∨ st.hi < b then
    let (cs, st2) := utf8LeadStep b
    (replChar :: cs, st2)
  else
    let acc2 := st.acc * 64 + (b - 128)
    if st.needed = 1 then ([Char.ofNat acc2], utf8Idle)
    else ([], ⟨st.needed - 1, acc2, 128, 191⟩)

/-- Run of the streaming decoder; a dangling incomplete sequence at end of
input emits one final U+FFFD. -/
def decodeUtf8Go (st : Utf8DecState) : List Nat → List Char
  | [] => if st.needed = 0 then [] else [replChar]
  | b :: rest =>
    let step := utf8Step st b
    step.1 ++ decodeUtf8Go step.2 rest

/-- UTF-8 decoding with U+FFFD replacement (`TextDecoder('utf-8').decode`,
per the WHATWG encoding standard's UTF-8 decoder). -/
def decodeUtf8Chars (bs : List Nat) : List Char :=
  decodeUtf8Go utf8Idle bs

/-- String view of a byte buffer (`BufferUtils.toString`). -/
def bufToString (bs : List Nat) : String :=
  String.mk (decodeUtf8Chars bs)

/-- Whether `pat` is a leading segment of `hay`. -/
def hasPrefixL : List Char → List Char → Bool
  | _, [] => true
  | [], _ :: _ => false
  | a :: as, b :: bs => a == b && hasPrefixL as bs

/-- First index at or after `i` where `pat` occurs in `hay`
(JS `String.indexOf`, with `none` for `-1`). -/
def findSubFrom (pat : List Char) : List Char → Nat → Option Nat
  | [], i => if hasPrefixL [] pat then some i else none
  | c :: rest, i =>
    if hasPrefixL (c :: rest) pat then some i else findSubFrom pat rest (i + 1)

/-- JS object property assignment `headers[key] = value`: overwrite in place,
else append. -/
def setHeader : List (String × String) → String → String → List (String × String)
  | [], k, v => [(k, v)]
  | (k0, v0) :: rest, k, v =>
    if k0 = k then (k, v) :: rest else (k0, v0) :: setHeader rest k v

/-- JS object property read `headers[key]`; `none` is `undefined`. -/
def getHeader (headers : List (String × String)) (k : String) : Option String :=
  (headers.find? (fun p => p.1 == k)).map Prod.snd

/-- JS `split("\r\n")`: cut at every CRLF occurrence, scanning left to
right. -/
def splitOnCRLF : List Char → List (List Char)
  | [] => [[]]
  | [c] => [[c]]
  | c1 :: c2 :: rest =>
    if c1 = '\r' ∧ c2 = '\n' then [] :: splitOnCRLF rest
    else
      match splitOnCRLF (c2 :: rest) with
      | g :: gs => (c1 :: g) :: gs
      | [] => [[c1]]

/-- JS `split(":")`: cut at every colon. -/
def splitOnColon : List Char → List (List Char)
  | [] => [[]]
  | c :: rest =>
    if c = ':' then [] :: splitOnColon rest
    else
      match splitOnColon rest with
      | g :: gs => (c :: g) :: gs
      | [] => [[c]]

/-- Whitespace stripped by JS `String.trim` (the ASCII portion; the claims
never exercise the Unicode space classes it also strips). -/
def isJsSpace (c : Char) : Bool :=
  c = ' ' ∨ c = '\t' ∨ c = '\n' ∨ c = '\r' ∨ c = '\x0b' ∨ c = '\x0c'

/-- JS `String.trim`. -/
def trimL (cs : List Char) : List Char :=
  (((cs.dropWhile isJsSpace).reverse).dropWhile isJsSpace).reverse

/-- Shared header-line parsing of both frame decoders: split the block on
CRLF, split each line as `line.split(':', 2)` (JS limit semantics: at most
the first two fields survive, anything after a second colon is discarded),
and keep `key -> value.trim()` when both parts are nonempty. -/
def parseHeaderLines (headerChars : List Char) : List (String × String) :=
  (splitOnCRLF headerChars).foldl
    (fun headers line =>
      match (splitOnColon line).take 2 with
      | [key, value] =>
        if key ≠ [] ∧ value ≠ [] then
          setHeader headers (String.mk key) (String.mk (trimL value))
        else headers
      | _ => headers)
    []

/-- Errors thrown by the engine, keeping the constructor split of
src exceptions (`UnknownResponse`, `UnexpectedResponse`, `WebSocketError`,
`NoAudioReceived`, `SkewAdjustmentError`) plus plain JS `Error`. -/
inductive Err
  | unknownResponse (msg : String)
  | unexpectedResponse (msg : String)
  | webSocketError (msg : String)
  | noAudioReceived (msg : String)
  | skewAdjustment (msg : String)
  | genericError (msg : String)
deriving DecidableEq

/-- Text-frame decode `getHeadersAndDataFromText`: decode the buffer, locate
the first CRLFCRLF at code-point index `headerEndIndex` (`none` for JS `-1`),
parse the prefix as header lines, and drop from the original bytes the UTF-8
byte length of `substring(0, headerEndIndex + 4)` — which is
`substring(0, 3)` when the separator is absent, since `-1 + 4 = 3`. -/
def getHeadersAndDataFromText (message : List Nat) :
    List (String × String) × List Nat :=
  let chars := decodeUtf8Chars message
  let headerEndIndex : Option Nat := findSubFrom ("\r\n\r\n".toList) chars 0
  let headers :=
    match headerEndIndex with
    | some i => parseHeaderLines (chars.take i)
    | none => []
  let cut : Nat :=
    match headerEndIndex with
    | some i => i + 4
    | none => 3
  let headerByteLength := (utf8BytesOfChars (chars.take cut)).length
  (headers, message.drop headerByteLength)

/-- Binary-frame decode `getHeadersAndDataFromBinary`: fewer than 2 bytes
throws; the first two bytes are a big-endian uint16 header length (bytes of a
`Uint8Array` are below 256, so `(b0 << 8) | b1` is `b0 * 256 + b1`); header
bytes are parsed only under the bound check `0 < len ∧ len + 2 ≤ |message|`,
and the payload is everything from byte `len + 2` on. -/
def getHeadersAndDataFromBinary (message : List Nat) :
    Except Err (List (String × String) × List Nat) :=
  match message with
  | b0 :: b1 :: _ =>
    let headerLength := b0 * 256 + b1
    let headers :=
      if 0 < headerLength ∧ headerLength + 2 ≤ message.length then
        parseHeaderLines (decodeUtf8Chars ((message.drop 2).take headerLength))
      else []
    .ok (headers, message.drop (headerLength + 2))
  | _ => .error (.genericError "Message too short to contain header length")

/-- Outcome of `processBinaryData`: an error pushed to the queue, an audio
chunk pushed to the queue, or nothing at all. -/
inductive BinOutcome
  | fault (e : Err)
  | audioChunk (data : List Nat)
  | ignored
deriving DecidableEq

/-- The `processBinaryData` closure of `_stream`: length guard, decode,
`Path` must be `audio`; for `Content-Type` other than `audio/mpeg` a
non-empty payload faults and an empty one is silently dropped; for
`audio/mpeg` an empty payload faults and a non-empty one is audio. -/
def processBinaryData (bufferData : List Nat) : BinOutcome :=
  if bufferData.length < 2 then
    .fault (.unexpectedResponse "We received a binary message, but it is missing the header length.")
  else
    match getHeadersAndDataFromBinary bufferData with
    | .error e => .fault e
    | .ok (headers, audioData) =>
      if getHeader headers "Path" ≠ some "audio" then
        .fault (.unexpectedResponse "Received binary message, but the path is not audio.")
      else
        if getHeader headers "Content-Type" ≠ some "audio/mpeg" then
          if audioData.length > 0 then
            .fault (.unexpectedResponse "Received binary message, but with an unexpected Content-Type.")
          else .ignored
        else if audioData.length = 0 then
          .fault (.unexpectedResponse "Received binary message, but it is missing the audio data.")
        else .audioChunk audioData

/-- The Windows-epoch offset constant of src/drm.ts. -/
def WIN_EPOCH : ℚ := 11644473600

/-- Nanoseconds per second (src/drm.ts `S_TO_NS`). -/
def S_TO_NS : ℚ := 1000000000

/-- The mutable static state of the `DRM` class: the process-wide clock skew
in seconds, initially `0.0`.  It is a JS number, so NaN (`none`) is a
reachable value. -/
structure DRMState where
  clockSkewSeconds : JSNum
deriving DecidableEq

/-- Initial `DRM` state (`clockSkewSeconds = 0.0`). -/
def initialDRMState : DRMState := ⟨some 0⟩

/-- `DRM.adjClockSkewSeconds`: add a correction to the skew. -/
def adjClockSkewSeconds (st : DRMState) (skewSeconds : JSNum) : DRMState :=
  ⟨jadd st.clockSkewSeconds skewSeconds⟩

/-- `DRM.getUnixTimestamp`: `Date.now() / 1000 + clockSkewSeconds` given the
current platform clock reading `nowMs` (a finite millisecond count). -/
def getUnixTimestamp (st : DRMState) (nowMs : ℚ) : JSNum :=
  jadd (some (nowMs / 1000)) st.clockSkewSeconds

/-- `DRM.parseRfc2616Date`, parametrized by the platform date parser
`dateParse` standing for `new Date(s).getTime()` (milliseconds, NaN when the
string is unparseable).  The JS `Date` constructor and `getTime` never throw,
so the `catch` branch that would return `null` (`Option.none` at this outer
layer) is unreachable: the result is always `some` of a number, possibly
NaN. -/
def parseRfc2616Date (dateParse : String → JSNum) (date : String) : Option JSNum :=
  some (jmul (dateParse date) (some (1 / 1000)))

/-- Truthiness filter for `headers["date"] || headers["Date"]` followed by
`if (!serverDate)`: an absent or empty header is falsy. -/
def truthyStr : Option String → Option String
  | some s => if s = "" then none else some s
  | none => none

/-- `DRM.handleClientResponseError` (plain-headers-object branch): read the
`date`/`Date` header, fail if absent, run the date parse, fail if it yielded
`null` (it never does), and otherwise add `serverDate - getUnixTimestamp()`
to the skew. -/
def handleClientResponseError (dateParse : String → JSNum)
    (headers : List (String × String)) (st : DRMState) (nowMs : ℚ) :
    Except Err DRMState :=
  let serverDate :=
    match truthyStr (getHeader headers "date") with
    | some d => some d
    | none => truthyStr (getHeader headers "Date")
  match serverDate with
  | none => .error (.skewAdjustment "No server date in headers.")
  | some d =>
    match parseRfc2616Date dateParse d with
    | none => .error (.skewAdjustment ("Failed to parse server date: " ++ d))
    | some serverDateParsed =>
      let clientDate := getUnixTimestamp st nowMs
      .ok (adjClockSkewSeconds st (jsub serverDateParsed clientDate))

/-- `DRM.generateSecMsGec`, parametrized by the hex-SHA-256 function `sha`
(src/utils/sha256 is out of tree) and the trusted client token constant:
bucket the skew-corrected timestamp to 300 seconds, scale to 100-nanosecond
ticks, and hash `ticks.toFixed(0) + TRUSTED_CLIENT_TOKEN`. -/
def generateSecMsGec (sha : String → String) (trustedClientToken : String)
    (st : DRMState) (nowMs : ℚ) : String :=
  let ticks0 := getUnixTimestamp st nowMs
  let ticks1 := jadd ticks0 (some WIN_EPOCH)
  let ticks2 := jsub ticks1 (jmod ticks1 (some 300))
  let ticks3 := jmul ticks2 (some (S_TO_NS / 100))
  sha (toFixed0 ticks3 ++ trustedClientToken)

/-- Replacement of every occurrence of the entity for a greater-than sign,
scanning left to right. -/
def replaceGtL : List Char → List Char
  | '&' :: 'g' :: 't' :: ';' :: rest => '>' :: replaceGtL rest
  | c :: rest => c :: replaceGtL rest
  | [] => []

/-- Replacement of every occurrence of the entity for a less-than sign. -/
def replaceLtL : List Char → List Char
  | '&' :: 'l' :: 't' :: ';' :: rest => '<' :: replaceLtL rest
  | c :: rest => c :: replaceLtL rest
  | [] => []

/-- Replacement of every occurrence of the entity for an ampersand. -/
def replaceAmpL : List Char → List Char
  | '&' :: 'a' :: 'm' :: 'p' :: ';' :: rest => '&' :: replaceAmpL rest
  | c :: rest => c :: replaceAmpL rest
  | [] => []

/-- Modelled from the spec: `unescape` lives in src/utils, which is not under
src/; per the spec, word-boundary text is markup-unescaped, reversing the
escaping of the reserved characters `&`, `<`, `>` from entity form, one
entity at a time. -/
def unescape (text : String) : String :=
  String.mk (replaceAmpL (replaceLtL (replaceGtL text.toList)))

/-- One entry of the `Metadata` array of an `audio.metadata` body, after
`JSON.parse`: its `Type` tag and the `Data.Offset`, `Data.Duration`,
`Data.text.Text` fields (only read when `Type` is `WordBoundary`). -/
structure MetaEntry where
  type : String
  offset : Int
  duration : Int
  text : String
deriving DecidableEq

/-- A chunk yielded by the engine: the `TTSChunk` union of communicate.ts. -/
inductive TTSChunk
  | audio (data : List Nat)
  | wordBoundary (offset duration : Int) (text : String)
deriving DecidableEq

/-- `Communicate.parseMetadata`, after `JSON.parse`: walk the `Metadata`
array in order; the first `WordBoundary` entry returns a chunk whose offset
is the raw offset plus the current compensation; `SessionEnd` entries are
skipped; any other type throws `UnknownResponse`; running out of entries
throws `UnexpectedResponse`. -/
def parseMetadata (offsetCompensation : Int) : List MetaEntry → Except Err TTSChunk
  | [] => .error (.unexpectedResponse "No WordBoundary metadata found")
  | e :: rest =>
    if e.type = "WordBoundary" then
      .ok (.wordBoundary (e.offset + offsetCompensation) e.duration (unescape e.text))
    else if e.type = "SessionEnd" then parseMetadata offsetCompensation rest
    else .error (.unknownResponse ("Unknown metadata type: " ++ e.type))

/-- State carried by one `_stream` sub-session: the instance fields
`offsetCompensation` and `lastDurationOffset` plus the local
`audioWasReceived` flag (reset at the start of every sub-session). -/
structure SessState where
  offsetCompensation : Int
  lastDurationOffset : Int
  audioWasReceived : Bool
deriving DecidableEq

/-- An inbound transport event: a text frame (a JS string), a binary frame,
or the close notification. -/
inductive InMsg
  | text (s : String)
  | binary (bs : List Nat)
  | close
deriving DecidableEq

/-- How a sub-session run ended: input exhausted while still waiting,
clean break on close after audio, or a thrown error. -/
inductive SessResult
  | pending
  | closed
  | faulted (e : Err)
deriving DecidableEq

/-- The text branch of `handleMessage`, parametrized by `jsonMeta` standing
for `JSON.parse` plus field extraction on the metadata body (an exception
there is caught and queued like a `parseMetadata` throw).  Returns the new
state, the chunks pushed, and the error pushed, if any. -/
def stepText (jsonMeta : List Nat → Except Err (List MetaEntry))
    (st : SessState) (s : String) : SessState × List TTSChunk × Option Err :=
  let hd := getHeadersAndDataFromText (utf8Bytes s)
  let path := getHeader hd.1 "Path"
  if path = some "audio.metadata" then
    match jsonMeta hd.2 with
    | .error e => (st, [], some e)
    | .ok entries =>
      match parseMetadata st.offsetCompensation entries with
      | .error e => (st, [], some e)
      | .ok (.wordBoundary o d t) =>
        ({ st with lastDurationOffset := o + d }, [.wordBoundary o d t], none)
      | .ok (.audio d) => (st, [.audio d], none)
  else if path = some "turn.end" then
    ({ st with offsetCompensation := st.lastDurationOffset }, [], none)
  else if path = some "response" ∨ path = some "turn.start" then (st, [], none)
  else
    (st, [], some (.unknownResponse ("Unknown path received: " ++ path.getD "undefined")))

/-- The binary branch of `handleMessage` plus the `audioWasReceived` update
performed by the consuming loop when it sees an audio chunk. -/
def stepBinary (st : SessState) (bufferData : List Nat) :
    SessState × List TTSChunk × Option Err :=
  match processBinaryData bufferData with
  | .fault e => (st, [], some e)
  | .audioChunk d => ({ st with audioWasReceived := true }, [.audio d], none)
  | .ignored => (st, [], none)

/-- The message loop of `_stream` over a list of transport events: handle
each event in arrival order, yielding chunks until an error is thrown, the
socket close is consumed (`NoAudioReceived` if no audio chunk was seen), or
the supplied events run out. -/
def runSession (jsonMeta : List Nat → Except Err (List MetaEntry)) :
    SessState → List InMsg → List TTSChunk × SessState × SessResult
  | st, [] => ([], st, .pending)
  | st, .close :: _ =>
    if st.audioWasReceived then ([], st, .closed)
    else ([], st, .faulted (.noAudioReceived "No audio was received."))
  | st, .text s :: rest =>
    match stepText jsonMeta st s with
    | (st2, outs, some e) => (outs, st2, .faulted e)
    | (st2, outs, none) =>
      let r := runSession jsonMeta st2 rest
      (outs ++ r.1, r.2.1, r.2.2)
  | st, .binary bs :: rest =>
    match stepBinary st bs with
    | (st2, outs, some e) => (outs, st2, .faulted e)
    | (st2, outs, none) =>
      let r := runSession jsonMeta st2 rest
      (outs ++ r.1, r.2.1, r.2.2)

/-- Whether a chunk is an audio chunk (`message.type === 'audio'`). -/
def isAudioChunk : TTSChunk → Bool
  | .audio _ => true
  | .wordBoundary _ _ _ => false

/-- The private `state` record of a `Communicate` instance. -/
structure CommunicateState where
  partialText : List Nat
  offsetCompensation : Int
  lastDurationOffset : Int
  streamWasCalled : Bool
deriving DecidableEq

/-- The state a `Communicate` instance is constructed with. -/
def initialCommunicateState : CommunicateState := ⟨[], 0, 0, false⟩

/-- The one-shot guard at the top of `Communicate.stream`: a second call
throws, a first call marks the instance used before any streaming starts. -/
def streamCall (st : CommunicateState) : Except Err CommunicateState :=
  if st.streamWasCalled then .error (.genericError "stream can only be called once.")
  else .ok { st with streamWasCalled := true }

deriving instance DecidableEq for Except

/-- Metadata parse results used by the two-segment offset scenario: the
platform JSON parse maps the second segment's body to a raw-offset-0
word boundary and every other body to the first segment's word boundary at
raw offset 1000 and duration 500. -/
def jmTwoSeg : List Nat → Except Err (List MetaEntry) := fun bs =>
  if bs = utf8Bytes "seg2" then .ok [⟨"WordBoundary", 0, 300, "w2"⟩]
  else .ok [⟨"WordBoundary", 1000, 500, "w1"⟩]

/-- A well-formed binary audio frame: 35 header bytes
`Path:audio CRLF Content-Type:audio/mpeg` and a two-byte MP3 payload. -/
def audioFrameMpeg : List Nat :=
  [0, 35] ++ utf8Bytes "Path:audio\r\nContent-Type:audio/mpeg" ++ [170, 187]

/-- Transport events of the scenario's first segment: one metadata frame,
one audio frame, `turn.end`, then the close notification. -/
def seg1Msgs : List InMsg :=
  [.text "X-RequestId:1\r\nContent-Type:application/json; charset=utf-8\r\nPath:audio.metadata\r\n\r\nseg1",
   .binary audioFrameMpeg,
   .text "Path:turn.end\r\n\r\n",
   .close]

/-- Auxiliary: `toFixed(0)` rounding is the identity on integer values. -/
theorem jsRound_intCast (n : ℤ) : jsRound (n : ℚ) = n := by
  have half : ⌊(1 / 2 : ℚ)⌋ = 0 := by norm_num
  unfold jsRound
  split
  · rw [Int.floor_int_add, half, add_zero]
  · have h : -(n : ℚ) + 1 / 2 = ((-n : ℤ) : ℚ) + 1 / 2 := by push_cast; ring
    rw [h, Int.floor_int_add, half, add_zero, neg_neg]

/-- Auxiliary: with a finite skew, the generated token is the hash of the
decimal 100-nanosecond tick count of the 300-second bucket, concatenated
with the trusted client token. -/
theorem generateSecMsGec_eq_sha (sha : String → String) (token : String)
    (skew nowMs : ℚ) :
    generateSecMsGec sha token ⟨some skew⟩ nowMs =
      sha (toString (300 * jsTrunc ((nowMs / 1000 + skew + 11644473600) / 300) * 10000000)
        ++ token) := by
  simp only [generateSecMsGec, getUnixTimestamp, jadd, jmod, jsub, jmul, toFixed0,
    WIN_EPOCH, S_TO_NS]
  norm_num
  apply congrArg sha
  apply congrArg (fun s => s ++ token)
  apply congrArg toString
  have h2 : (300 * (jsTrunc ((nowMs / 1000 + skew + 11644473600) / 300) : ℚ) * 10000000) =
      ((300 * jsTrunc ((nowMs / 1000 + skew + 11644473600) / 300) * 10000000 : ℤ) : ℚ) := by
    push_cast
    ring
  rw [h2, jsRound_intCast]

/-- Claim C1: `generateSecMsGec` hashes the decimal integer count of
100-nanosecond ticks of the skew-corrected timestamp truncated down to its
300-second bucket, concatenated with the trusted-client constant;
consequently, for a fixed clock skew, two calls whose timestamps fall in the
same 300-second bucket return the identical token. -/
theorem generateSecMsGec_bucket_token :
    (∀ (sha : String → String) (token : String) (skew nowMs : ℚ),
      generateSecMsGec sha token ⟨some skew⟩ nowMs =
        sha (toString (300 * jsTrunc ((nowMs / 1000 + skew + 11644473600) / 300) * 10000000)
          ++ token)) ∧
    (∀ (sha : String → String) (token : String) (skew nowMs1 nowMs2 : ℚ),
      jsTrunc ((nowMs1 / 1000 + skew + 11644473600) / 300) =
        jsTrunc ((nowMs2 / 1000 + skew + 11644473600) / 300) →
      generateSecMsGec sha token ⟨some skew⟩ nowMs1 =
        generateSecMsGec sha token ⟨some skew⟩ nowMs2) := by
  refine ⟨generateSecMsGec_eq_sha, ?_⟩
  intro sha token skew nowMs1 nowMs2 hbucket
  rw [generateSecMsGec_eq_sha, generateSecMsGec_eq_sha, hbucket]

/-- Witness for C1: local times 0 ms and 299000 ms lie in the same
300-second bucket and yield the same token. -/
theorem generateSecMsGec_bucket_token_witness :
    jsTrunc (((0 : ℚ) / 1000 + 0 + 11644473600) / 300) =
      jsTrunc (((299000 : ℚ) / 1000 + 0 + 11644473600) / 300) ∧
    generateSecMsGec (fun s => s) "TOKEN" ⟨some 0⟩ 0 =
      generateSecMsGec (fun s => s) "TOKEN" ⟨some 0⟩ 299000 := by
  constructor
  · norm_num [jsTrunc]
  · exact generateSecMsGec_bucket_token.2 (fun s => s) "TOKEN" 0 0 299000
      (by norm_num [jsTrunc])

/-- Claim C10: `parseMetadata` walks the metadata array in order and returns
at the first `WordBoundary` entry, so entries after it are never examined —
replacing everything after that entry changes nothing. -/
theorem parseMetadata_first_wordBoundary (comp : Int) (pre : List MetaEntry)
    (e : MetaEntry) (rest : List MetaEntry) (he : e.type = "WordBoundary") :
    parseMetadata comp (pre ++ e :: rest) = parseMetadata comp (pre ++ [e]) := by
  induction pre with
  | nil => simp [parseMetadata, he]
  | cons h t ih =>
    simp only [List.cons_append, parseMetadata]
    split
    · rfl
    · split
      · exact ih
      · rfl

/-- Witness for C10: an unknown-type entry and a second word boundary after
the first word boundary neither fault nor add an event. -/
theorem parseMetadata_first_wordBoundary_witness :
    parseMetadata 7 [⟨"SessionEnd", 0, 0, ""⟩, ⟨"WordBoundary", 10, 5, "w"⟩,
        ⟨"Garbage", 0, 0, ""⟩, ⟨"WordBoundary", 99, 9, "x"⟩] =
      parseMetadata 7 [⟨"SessionEnd", 0, 0, ""⟩, ⟨"WordBoundary", 10, 5, "w"⟩] :=
  parseMetadata_first_wordBoundary 7 [⟨"SessionEnd", 0, 0, ""⟩] ⟨"WordBoundary", 10, 5, "w"⟩
    [⟨"Garbage", 0, 0, ""⟩, ⟨"WordBoundary", 99, 9, "x"⟩] rfl

/-- Counterexample to claim C5 as stated: on an empty `Metadata` array the
code still throws `UnexpectedResponse`, although the claim allows that fault
only for a non-empty exhausted array. -/
theorem parseMetadata_empty_array_counterexample :
    parseMetadata 0 [] = .error (.unexpectedResponse "No WordBoundary metadata found") := rfl

/-- Claim C5 (amended): a `SessionEnd` entry is skipped; any type other than
`WordBoundary` and `SessionEnd` raises `UnknownResponse`; and the
`UnexpectedResponse` no-word-boundary fault is raised exactly when the array
is exhausted without a `WordBoundary` — that is, when every entry (of
possibly none) is a `SessionEnd`. -/
theorem parseMetadata_fault_classification :
    (∀ (comp : Int) (e : MetaEntry) (rest : List MetaEntry), e.type = "SessionEnd" →
      parseMetadata comp (e :: rest) = parseMetadata comp rest) ∧
    (∀ (comp : Int) (e : MetaEntry) (rest : List MetaEntry),
      e.type ≠ "WordBoundary" → e.type ≠ "SessionEnd" →
      parseMetadata comp (e :: rest) =
        .error (.unknownResponse ("Unknown metadata type: " ++ e.type))) ∧
    (∀ (comp : Int) (entries : List MetaEntry),
      parseMetadata comp entries =
          .error (.unexpectedResponse "No WordBoundary metadata found") ↔
        ∀ e ∈ entries, e.type = "SessionEnd") := by
  refine ⟨?_, ?_, ?_⟩
  · intro comp e rest he
    have hw : e.type ≠ "WordBoundary" := by rw [he]; decide
    simp [parseMetadata, hw, he]
  · intro comp e rest hw hs
    simp [parseMetadata, hw, hs]
  · intro comp entries
    induction entries with
    | nil => simp [parseMetadata]
    | cons e rest ih =>
      by_cases hw : e.type = "WordBoundary"
      · simp [parseMetadata, hw]
      · by_cases hs : e.type = "SessionEnd"
        · simp [parseMetadata, hw, hs, ih]
        · simp [parseMetadata, hw, hs]

/-- Witness for the amended C5 at concrete inputs. -/
theorem parseMetadata_fault_classification_witness :
    parseMetadata 0 [⟨"SessionEnd", 1, 2, "a"⟩, ⟨"WordBoundary", 3, 4, "b"⟩] =
        parseMetadata 0 [⟨"WordBoundary", 3, 4, "b"⟩] ∧
    parseMetadata 0 [⟨"Garbage", 0, 0, ""⟩] =
        .error (.unknownResponse ("Unknown metadata type: " ++ "Garbage")) ∧
    (parseMetadata 5 [⟨"SessionEnd", 1, 2, "a"⟩] =
        .error (.unexpectedResponse "No WordBoundary metadata found") ↔
      ∀ e ∈ [(⟨"SessionEnd", 1, 2, "a"⟩ : MetaEntry)], e.type = "SessionEnd") :=
  ⟨parseMetadata_fault_classification.1 0 ⟨"SessionEnd", 1, 2, "a"⟩ _ rfl,
   parseMetadata_fault_classification.2.1 0 ⟨"Garbage", 0, 0, ""⟩ [] (by decide) (by decide),
   parseMetadata_fault_classification.2.2 5 [⟨"SessionEnd", 1, 2, "a"⟩]⟩

/-- Counterexample to claim C3 as stated, at two concrete inputs: a line with
two colons keeps only the text between the first and the second colon (JS
`split(':', 2)` discards the rest of the line), and with no CRLFCRLF
separator the payload is not the whole message — the UTF-8 bytes of the
first three characters are sliced off. -/
theorem textFrame_decode_claim_counterexample :
    (getHeadersAndDataFromText (utf8Bytes "A:b:c\r\n\r\n") = ([("A", "b")], []) ∧
      (("A", "b") : String × String) ≠ ("A", "b:c")) ∧
    (getHeadersAndDataFromText (utf8Bytes "abcdef") = ([], utf8Bytes "def") ∧
      utf8Bytes "def" ≠ utf8Bytes "abcdef") := by
  exact ⟨⟨by decide, by decide⟩, ⟨by decide, by decide⟩⟩

/-- Claim C3 (amended): with a CRLFCRLF separator at index `i`, the prefix
parses as header lines — each split on colons with only the first two fields
kept and the value trimmed — and the payload is the original bytes after the
UTF-8 byte length of the decoded prefix including the separator; with no
separator, headers are empty and the payload is the message minus the UTF-8
byte length of its first `min(3, length)` characters, an artifact of slicing
at `headerEndIndex + 4` with `headerEndIndex = -1`. -/
theorem textFrame_decode_amended :
    (getHeadersAndDataFromText (utf8Bytes "Path:turn.start\r\n\r\n") =
      ([("Path", "turn.start")], [])) ∧
    (∀ (message : List Nat) (i : Nat),
      findSubFrom ("\r\n\r\n".toList) (decodeUtf8Chars message) 0 = some i →
      getHeadersAndDataFromText message =
        (parseHeaderLines ((decodeUtf8Chars message).take i),
          message.drop ((utf8BytesOfChars ((decodeUtf8Chars message).take (i + 4))).length))) ∧
    (∀ message : List Nat,
      findSubFrom ("\r\n\r\n".toList) (decodeUtf8Chars message) 0 = none →
      getHeadersAndDataFromText message =
        ([], message.drop ((utf8BytesOfChars ((decodeUtf8Chars message).take 3)).length))) ∧
    (getHeadersAndDataFromText (utf8Bytes "A:b:c\r\n\r\nxyz") = ([("A", "b")], utf8Bytes "xyz")) := by
  refine ⟨by decide, ?_, ?_, by decide⟩
  · intro message i h
    simp only [getHeadersAndDataFromText, h]
  · intro message h
    simp only [getHeadersAndDataFromText, h]

/-- Witness for the amended C3 at concrete inputs, in both separator
cases. -/
theorem textFrame_decode_amended_witness :
    (getHeadersAndDataFromText (utf8Bytes "K:v\r\n\r\npay") =
      (parseHeaderLines ((decodeUtf8Chars (utf8Bytes "K:v\r\n\r\npay")).take 3),
        (utf8Bytes "K:v\r\n\r\npay").drop
          ((utf8BytesOfChars ((decodeUtf8Chars (utf8Bytes "K:v\r\n\r\npay")).take (3 + 4))).length))) ∧
    (getHeadersAndDataFromText (utf8Bytes "abcdef") =
      ([], (utf8Bytes "abcdef").drop
        ((utf8BytesOfChars ((decodeUtf8Chars (utf8Bytes "abcdef")).take 3)).length))) :=
  ⟨textFrame_decode_amended.2.1 (utf8Bytes "K:v\r\n\r\npay") 3 (by decide),
   textFrame_decode_amended.2.2.1 (utf8Bytes "abcdef") (by decide)⟩

/-- Claim C4: binary decode fails on a message shorter than 2 bytes; when the
declared big-endian header length plus 2 exceeds the message length, headers
come back empty and nothing is sliced out of bounds (the payload is empty);
otherwise the header bytes parse as header lines and the remaining bytes are
the payload; and the spec's example frame decodes to empty headers with the
two trailing bytes as payload. -/
theorem binaryFrame_decode_spec :
    (∀ message : List Nat, message.length < 2 →
      getHeadersAndDataFromBinary message =
        .error (.genericError "Message too short to contain header length")) ∧
    (∀ (b0 b1 : Nat) (rest : List Nat) (hs : List (String × String)) (pl : List Nat),
      getHeadersAndDataFromBinary (b0 :: b1 :: rest) = .ok (hs, pl) →
      (b0 :: b1 :: rest).length < b0 * 256 + b1 + 2 →
      hs = [] ∧ pl = []) ∧
    (∀ (b0 b1 : Nat) (rest : List Nat),
      b0 * 256 + b1 + 2 ≤ (b0 :: b1 :: rest).length →
      getHeadersAndDataFromBinary (b0 :: b1 :: rest) =
        .ok (parseHeaderLines (decodeUtf8Chars (((b0 :: b1 :: rest).drop 2).take (b0 * 256 + b1))),
          (b0 :: b1 :: rest).drop (b0 * 256 + b1 + 2))) ∧
    (getHeadersAndDataFromBinary [0, 4, 80, 97, 116, 104, 170, 187] = .ok ([], [170, 187])) := by
  refine ⟨?_, ?_, ?_, by decide⟩
  · intro message h
    match message with
    | [] => rfl
    | [b] => rfl
    | b0 :: b1 :: rest => simp at h; omega
  · intro b0 b1 rest hs pl hok hlen
    have hcond : ¬(0 < b0 * 256 + b1 ∧ b0 * 256 + b1 + 2 ≤ (b0 :: b1 :: rest).length) := by
      intro hc
      omega
    simp only [getHeadersAndDataFromBinary, if_neg hcond, Except.ok.injEq,
      Prod.mk.injEq] at hok
    obtain ⟨h1, h2⟩ := hok
    refine ⟨h1.symm, ?_⟩
    rw [← h2]
    apply List.drop_eq_nil_of_le
    omega
  · intro b0 b1 rest hlen
    rcases Nat.eq_zero_or_pos (b0 * 256 + b1) with h0 | h0
    · have hcond : ¬(0 < b0 * 256 + b1 ∧ b0 * 256 + b1 + 2 ≤ (b0 :: b1 :: rest).length) := by
        omega
      simp only [getHeadersAndDataFromBinary, if_neg hcond, h0]
      rfl
    · have hcond : 0 < b0 * 256 + b1 ∧ b0 * 256 + b1 + 2 ≤ (b0 :: b1 :: rest).length :=
        ⟨h0, hlen⟩
      simp only [getHeadersAndDataFromBinary, if_pos hcond]

/-- Witness for C4 at concrete inputs: a one-byte message, an over-declared
header length, and an in-bounds header. -/
theorem binaryFrame_decode_spec_witness :
    (getHeadersAndDataFromBinary [7] =
      .error (.genericError "Message too short to contain header length")) ∧
    (([] : List (String × String)) = [] ∧ ([] : List Nat) = []) ∧
    (getHeadersAndDataFromBinary [0, 3, 65, 58, 98] =
      .ok (parseHeaderLines (decodeUtf8Chars (([0, 3, 65, 58, 98].drop 2).take (0 * 256 + 3))),
        [0, 3, 65, 58, 98].drop (0 * 256 + 3 + 2))) :=
  ⟨binaryFrame_decode_spec.1 [7] (by decide),
   binaryFrame_decode_spec.2.1 0 50 [80] [] [] (by decide) (by decide),
   binaryFrame_decode_spec.2.2.1 0 3 [65, 58, 98] (by decide)⟩

/-- Auxiliary: a successful `parseMetadata` returns a word boundary built
from some entry of the array, with the compensation added to its raw
offset. -/
theorem parseMetadata_ok_shape (comp : Int) (entries : List MetaEntry) (c : TTSChunk)
    (h : parseMetadata comp entries = .ok c) :
    ∃ e ∈ entries, e.type = "WordBoundary" ∧
      c = .wordBoundary (e.offset + comp) e.duration (unescape e.text) := by
  induction entries with
  | nil => simp [parseMetadata] at h
  | cons e rest ih =>
    by_cases hw : e.type = "WordBoundary"
    · simp only [parseMetadata, hw, if_pos, Except.ok.injEq] at h
      exact ⟨e, by simp, hw, h.symm⟩
    · by_cases hs : e.type = "SessionEnd"
      · simp only [parseMetadata, hw, hs] at h
        simp at h
        obtain ⟨e2, he2, h2⟩ := ih h
        exact ⟨e2, by simp [he2], h2⟩
      · simp [parseMetadata, hw, hs] at h

/-- Auxiliary: after a text message is handled without error, any word
boundary it pushed left `lastDurationOffset` equal to its reported offset
plus its duration. -/
theorem stepText_wordBoundary_updates (jm : List Nat → Except Err (List MetaEntry))
    (st st2 : SessState) (s : String) (outs : List TTSChunk) (o d : Int) (t : String)
    (h : stepText jm st s = (st2, outs, none))
    (hmem : TTSChunk.wordBoundary o d t ∈ outs) :
    st2.lastDurationOffset = o + d := by
  simp only [stepText] at h
  by_cases hp : getHeader (getHeadersAndDataFromText (utf8Bytes s)).1 "Path" = some "audio.metadata"
  · rw [if_pos hp] at h
    cases hjm : jm (getHeadersAndDataFromText (utf8Bytes s)).2 with
    | error e => rw [hjm] at h; simp at h
    | ok entries =>
      rw [hjm] at h
      dsimp only at h
      cases hpm : parseMetadata st.offsetCompensation entries with
      | error e => rw [hpm] at h; simp at h
      | ok c =>
        rw [hpm] at h
        cases c with
        | audio dd =>
          cases h
          simp at hmem
        | wordBoundary o2 d2 t2 =>
          cases h
          simp at hmem
          obtain ⟨ho, hd, ht⟩ := hmem
          simp [ho, hd]
  · rw [if_neg hp] at h
    by_cases hp2 : getHeader (getHeadersAndDataFromText (utf8Bytes s)).1 "Path" = some "turn.end"
    · rw [if_pos hp2] at h
      cases h
      simp at hmem
    · rw [if_neg hp2] at h
      by_cases hp3 : getHeader (getHeadersAndDataFromText (utf8Bytes s)).1 "Path" = some "response" ∨
          getHeader (getHeadersAndDataFromText (utf8Bytes s)).1 "Path" = some "turn.start"
      · rw [if_pos hp3] at h
        cases h
        simp at hmem
      · rw [if_neg hp3] at h
        simp at h

/-- Auxiliary: a `turn.end` frame copies `lastDurationOffset` into
`offsetCompensation`. -/
theorem stepText_turn_end (jm : List Nat → Except Err (List MetaEntry))
    (st : SessState) (s : String)
    (hp : getHeader (getHeadersAndDataFromText (utf8Bytes s)).1 "Path" = some "turn.end") :
    (stepText jm st s).1.offsetCompensation = st.lastDurationOffset := by
  have hp1 : getHeader (getHeadersAndDataFromText (utf8Bytes s)).1 "Path" ≠ some "audio.metadata" := by
    rw [hp]; decide
  simp only [stepText, if_neg hp1, if_pos hp]

/-- Claim C2: every word-boundary event reports raw offset plus the current
compensation; after each word boundary `lastDurationOffset` becomes reported
offset plus duration; `turn.end` copies `lastDurationOffset` into
`offsetCompensation`; and in the two-segment scenario — segment 1 with a
word boundary at raw offset 1000 and duration 500 followed by `turn.end`,
then segment 2 — segment 2's first word boundary at raw offset 0 is
reported at absolute offset 1500. -/
theorem wordBoundary_offset_compensation :
    (∀ (comp : Int) (entries : List MetaEntry) (c : TTSChunk),
      parseMetadata comp entries = .ok c →
      ∃ e ∈ entries, e.type = "WordBoundary" ∧
        c = .wordBoundary (e.offset + comp) e.duration (unescape e.text)) ∧
    (∀ (jm : List Nat → Except Err (List MetaEntry)) (st st2 : SessState)
        (s : String) (outs : List TTSChunk) (o d : Int) (t : String),
      stepText jm st s = (st2, outs, none) →
      TTSChunk.wordBoundary o d t ∈ outs →
      st2.lastDurationOffset = o + d) ∧
    (∀ (jm : List Nat → Except Err (List MetaEntry)) (st : SessState) (s : String),
      getHeader (getHeadersAndDataFromText (utf8Bytes s)).1 "Path" = some "turn.end" →
      (stepText jm st s).1.offsetCompensation = st.lastDurationOffset) ∧
    (runSession jmTwoSeg ⟨0, 0, false⟩ seg1Msgs =
        ([.wordBoundary 1000 500 "w1", .audio [170, 187]], ⟨1500, 1500, true⟩, .closed) ∧
      runSession jmTwoSeg ⟨1500, 1500, false⟩ [.text "Path:audio.metadata\r\n\r\nseg2"] =
        ([.wordBoundary 1500 300 "w2"], ⟨1500, 1800, false⟩, .pending)) :=
  ⟨parseMetadata_ok_shape, stepText_wordBoundary_updates, stepText_turn_end,
    by decide, by decide⟩

/-- Witness for C2 at concrete inputs: a word boundary at raw offset 10 with
compensation 5 reports 15, a handled metadata frame leaves
`lastDurationOffset` at 10 + 4, and `turn.end` copies 42 into the
compensation. -/
theorem wordBoundary_offset_compensation_witness :
    (∃ e ∈ [(⟨"WordBoundary", 10, 4, "x&amp;y"⟩ : MetaEntry)], e.type = "WordBoundary" ∧
      TTSChunk.wordBoundary 15 4 "x&y" =
        .wordBoundary (e.offset + 5) e.duration (unescape e.text)) ∧
    (⟨0, 14, false⟩ : SessState).lastDurationOffset = 10 + 4 ∧
    (stepText (fun _ => .ok []) ⟨3, 42, false⟩ "Path:turn.end\r\n\r\n").1.offsetCompensation =
      (⟨3, 42, false⟩ : SessState).lastDurationOffset :=
  ⟨wordBoundary_offset_compensation.1 5 [⟨"WordBoundary", 10, 4, "x&amp;y"⟩]
      (.wordBoundary 15 4 "x&y") (by decide),
   wordBoundary_offset_compensation.2.1 (fun _ => .ok [⟨"WordBoundary", 10, 4, "w"⟩])
      ⟨0, 0, false⟩ ⟨0, 14, false⟩ "Path:audio.metadata\r\n\r\nx"
      [.wordBoundary 10 4 "w"] 10 4 "w" (by decide) (by decide),
   wordBoundary_offset_compensation.2.2.1 (fun _ => .ok []) ⟨3, 42, false⟩
      "Path:turn.end\r\n\r\n" (by decide)⟩

/-- Claim C7: for a decoded binary frame, a non-`audio` path faults; under
path `audio`, content type `audio/mpeg` with a non-empty payload is one
audio event, `audio/mpeg` with an empty payload is the empty-audio fault, a
different content type with a non-empty payload is the content-type fault,
and a different content type with an empty payload is silently ignored. -/
theorem processBinaryData_classification
    (bs : List Nat) (hs : List (String × String)) (pl : List Nat)
    (hlen : 2 ≤ bs.length)
    (hok : getHeadersAndDataFromBinary bs = .ok (hs, pl)) :
    (getHeader hs "Path" ≠ some "audio" →
      processBinaryData bs =
        .fault (.unexpectedResponse "Received binary message, but the path is not audio.")) ∧
    (getHeader hs "Path" = some "audio" →
      (getHeader hs "Content-Type" = some "audio/mpeg" → 0 < pl.length →
        processBinaryData bs = .audioChunk pl) ∧
      (getHeader hs "Content-Type" = some "audio/mpeg" → pl.length = 0 →
        processBinaryData bs =
          .fault (.unexpectedResponse "Received binary message, but it is missing the audio data.")) ∧
      (getHeader hs "Content-Type" ≠ some "audio/mpeg" → 0 < pl.length →
        processBinaryData bs =
          .fault (.unexpectedResponse "Received binary message, but with an unexpected Content-Type.")) ∧
      (getHeader hs "Content-Type" ≠ some "audio/mpeg" → pl.length = 0 →
        processBinaryData bs = .ignored)) := by
  have hnl : ¬bs.length < 2 := by omega
  constructor
  · intro hpath
    simp only [processBinaryData, if_neg hnl, hok]
    rw [if_pos hpath]
  · intro hpath
    have hpath2 : ¬getHeader hs "Path" ≠ some "audio" := by simp [hpath]
    refine ⟨?_, ?_, ?_, ?_⟩
    · intro hct hpl
      simp only [processBinaryData, if_neg hnl, hok]
      rw [if_neg hpath2]
      have hct2 : ¬getHeader hs "Content-Type" ≠ some "audio/mpeg" := by simp [hct]
      rw [if_neg hct2, if_neg (by omega : ¬pl.length = 0)]
    · intro hct hpl
      simp only [processBinaryData, if_neg hnl, hok]
      rw [if_neg hpath2]
      have hct2 : ¬getHeader hs "Content-Type" ≠ some "audio/mpeg" := by simp [hct]
      rw [if_neg hct2, if_pos hpl]
    · intro hct hpl
      simp only [processBinaryData, if_neg hnl, hok]
      rw [if_neg hpath2, if_pos hct, if_pos hpl]
    · intro hct hpl
      simp only [processBinaryData, if_neg hnl, hok]
      rw [if_neg hpath2, if_pos hct, if_neg (by omega : ¬pl.length > 0)]

/-- Witness for C7: one concrete frame per classification branch. -/
theorem processBinaryData_classification_witness :
    processBinaryData ([0, 35] ++ utf8Bytes "Path:audio\r\nContent-Type:audio/mpeg" ++ [170, 187]) =
        .audioChunk [170, 187] ∧
    processBinaryData ([0, 35] ++ utf8Bytes "Path:audio\r\nContent-Type:audio/mpeg") =
        .fault (.unexpectedResponse "Received binary message, but it is missing the audio data.") ∧
    processBinaryData ([0, 35] ++ utf8Bytes "Path:audio\r\nContent-Type:text/plain" ++ [1]) =
        .fault (.unexpectedResponse "Received binary message, but with an unexpected Content-Type.") ∧
    processBinaryData ([0, 35] ++ utf8Bytes "Path:audio\r\nContent-Type:text/plain") = .ignored ∧
    processBinaryData ([0, 10] ++ utf8Bytes "Path:other" ++ [1]) =
        .fault (.unexpectedResponse "Received binary message, but the path is not audio.") :=
  ⟨((processBinaryData_classification _
      [("Path", "audio"), ("Content-Type", "audio/mpeg")] [170, 187]
      (by decide) (by decide)).2 (by decide)).1 (by decide) (by decide),
   ((processBinaryData_classification _
      [("Path", "audio"), ("Content-Type", "audio/mpeg")] []
      (by decide) (by decide)).2 (by decide)).2.1 (by decide) (by decide),
   ((processBinaryData_classification _
      [("Path", "audio"), ("Content-Type", "text/plain")] [1]
      (by decide) (by decide)).2 (by decide)).2.2.1 (by decide) (by decide),
   ((processBinaryData_classification _
      [("Path", "audio"), ("Content-Type", "text/plain")] []
      (by decide) (by decide)).2 (by decide)).2.2.2 (by decide) (by decide),
   (processBinaryData_classification _ [("Path", "other")] [1]
      (by decide) (by decide)).1 (by decide)⟩

/-- Auxiliary: handling a text frame never changes the audio-received
flag. -/
theorem stepText_flag (jm : List Nat → Except Err (List MetaEntry))
    (st : SessState) (s : String) :
    (stepText jm st s).1.audioWasReceived = st.audioWasReceived := by
  simp only [stepText]
  repeat' split
  all_goals rfl

/-- Auxiliary: `parseMetadata` never yields an audio chunk. -/
theorem parseMetadata_ne_audio (comp : Int) (entries : List MetaEntry) (d : List Nat) :
    parseMetadata comp entries ≠ .ok (.audio d) := by
  induction entries with
  | nil => simp [parseMetadata]
  | cons e rest ih =>
    by_cases hw : e.type = "WordBoundary"
    · simp [parseMetadata, hw]
    · by_cases hs : e.type = "SessionEnd" <;> simp [parseMetadata, hw, hs, ih]

/-- Auxiliary: text frames never push audio chunks. -/
theorem stepText_no_audio (jm : List Nat → Except Err (List MetaEntry))
    (st : SessState) (s : String) :
    (stepText jm st s).2.1.any isAudioChunk = false := by
  simp only [stepText]
  split
  · split
    · rfl
    · split
      · rfl
      · rfl
      · rename_i heq
        exact absurd heq (parseMetadata_ne_audio _ _ _)
  · split
    · rfl
    · split <;> rfl

/-- Auxiliary: a run that is still pending continues through appended
transport events from its final state, with outputs concatenated. -/
theorem runSession_append_pending (jm : List Nat → Except Err (List MetaEntry))
    (s0 st : SessState) (pre more : List InMsg) (outs : List TTSChunk)
    (h : runSession jm s0 pre = (outs, st, .pending)) :
    runSession jm s0 (pre ++ more) =
      (outs ++ (runSession jm st more).1,
        (runSession jm st more).2.1, (runSession jm st more).2.2) := by
  induction pre generalizing s0 outs with
  | nil =>
    simp only [runSession] at h
    cases h
    simp
  | cons m rest ih =>
    cases m with
    | close =>
      simp only [runSession] at h
      split at h <;> simp at h
    | text s =>
      rcases hst : stepText jm s0 s with ⟨st2, mouts, oe⟩
      cases oe with
      | some e =>
        simp only [runSession, hst] at h
        simp at h
      | none =>
        rcases hr : runSession jm st2 rest with ⟨outs2, st3, res2⟩
        simp only [runSession, hst, hr] at h
        simp only [Prod.mk.injEq] at h
        obtain ⟨h1, h2, h3⟩ := h
        subst h1
        subst h2
        subst h3
        have ih2 := ih st2 outs2 hr
        simp only [List.cons_append, runSession, hst, ih2]
        simp [ih2, List.append_assoc]
    | binary bs =>
      rcases hst : stepBinary s0 bs with ⟨st2, mouts, oe⟩
      cases oe with
      | some e =>
        simp only [runSession, hst] at h
        simp at h
      | none =>
        rcases hr : runSession jm st2 rest with ⟨outs2, st3, res2⟩
        simp only [runSession, hst, hr] at h
        simp only [Prod.mk.injEq] at h
        obtain ⟨h1, h2, h3⟩ := h
        subst h1
        subst h2
        subst h3
        have ih2 := ih st2 outs2 hr
        simp only [List.cons_append, runSession, hst, ih2]
        simp [ih2, List.append_assoc]

/-- Auxiliary: the audio-received flag after a run equals the starting flag
or-ed with whether the run yielded any audio chunk. -/
theorem runSession_audio_flag (jm : List Nat → Except Err (List MetaEntry))
    (s0 : SessState) (msgs : List InMsg) :
    (runSession jm s0 msgs).2.1.audioWasReceived =
      (s0.audioWasReceived || (runSession jm s0 msgs).1.any isAudioChunk) := by
  induction msgs generalizing s0 with
  | nil => simp [runSession]
  | cons m rest ih =>
    cases m with
    | close =>
      simp only [runSession]
      split <;> simp
    | text s =>
      rcases hst : stepText jm s0 s with ⟨st2, mouts, oe⟩
      have hflag : st2.audioWasReceived = s0.audioWasReceived := by
        have h := stepText_flag jm s0 s
        rw [hst] at h
        exact h
      have hout : mouts.any isAudioChunk = false := by
        have h := stepText_no_audio jm s0 s
        rw [hst] at h
        exact h
      cases oe with
      | some e =>
        simp only [runSession, hst]
        simp [hflag, hout]
      | none =>
        simp only [runSession, hst]
        have ihr := ih st2
        simp only [List.any_append, hout, Bool.false_or] at ihr ⊢
        simp [ihr, hflag]
    | binary bs =>
      cases hpb : processBinaryData bs with
      | fault e => simp [runSession, stepBinary, hpb]
      | audioChunk d =>
        simp only [runSession, stepBinary, hpb]
        have ihr := ih { s0 with audioWasReceived := true }
        simp only [List.any_append] at ihr ⊢
        simp [ihr, isAudioChunk]
      | ignored =>
        simp only [runSession, stepBinary, hpb]
        have ihr := ih s0
        simp only [List.any_append] at ihr ⊢
        simp [ihr]

/-- Claim C8: if the transport close arrives while no audio event has been
produced in the sub-session, the run has yielded zero audio chunks and
raises `NoAudioReceived`. -/
theorem noAudioReceived_on_close (jm : List Nat → Except Err (List MetaEntry))
    (s0 st : SessState) (pre : List InMsg) (outs : List TTSChunk)
    (h0 : s0.audioWasReceived = false)
    (h1 : runSession jm s0 pre = (outs, st, .pending))
    (h2 : st.audioWasReceived = false) :
    outs.any isAudioChunk = false ∧
    runSession jm s0 (pre ++ [InMsg.close]) =
      (outs, st, .faulted (.noAudioReceived "No audio was received.")) := by
  have hflag := runSession_audio_flag jm s0 pre
  rw [h1] at hflag
  simp only [h0, h2, Bool.false_or] at hflag
  constructor
  · exact hflag.symm
  · have happ := runSession_append_pending jm s0 st pre [InMsg.close] outs h1
    rw [happ]
    simp [runSession, h2]

/-- Witness for C8: a sub-session seeing `turn.start`, `turn.end` and then
the close notification, with no audio frame, faults with
`NoAudioReceived` and yields nothing. -/
theorem noAudioReceived_on_close_witness :
    ([] : List TTSChunk).any isAudioChunk = false ∧
    runSession (fun _ => .ok []) ⟨0, 0, false⟩
        ([.text "Path:turn.start\r\n\r\n", .text "Path:turn.end\r\n\r\n"] ++ [InMsg.close]) =
      ([], ⟨0, 0, false⟩, .faulted (.noAudioReceived "No audio was received.")) :=
  noAudioReceived_on_close (fun _ => .ok []) ⟨0, 0, false⟩ ⟨0, 0, false⟩
    [.text "Path:turn.start\r\n\r\n", .text "Path:turn.end\r\n\r\n"] []
    (by decide) (by decide) (by decide)

/-- Claim C9: after a first successful invocation of the streaming entry
point, any further invocation on the same instance throws — whatever the
streaming work did to the other state fields in between. -/
theorem stream_single_use :
    (∀ st st2 : CommunicateState, streamCall st = .ok st2 →
      streamCall st2 = .error (.genericError "stream can only be called once.")) ∧
    (∀ (st st2 : CommunicateState) (pt : List Nat) (comp last : Int),
      streamCall st = .ok st2 →
      streamCall { st2 with
          partialText := pt
          offsetCompensation := comp
          lastDurationOffset := last } =
        .error (.genericError "stream can only be called once.")) := by
  have key : ∀ st st2 : CommunicateState, streamCall st = .ok st2 →
      st2.streamWasCalled = true := by
    intro st st2 h
    simp only [streamCall] at h
    split at h
    · simp at h
    · simp only [Except.ok.injEq] at h
      rw [← h]
  constructor
  · intro st st2 h
    have h2 := key st st2 h
    simp [streamCall, h2]
  · intro st st2 pt comp last h
    have h2 := key st st2 h
    simp [streamCall, h2]

/-- Witness for C9: the fresh instance state, once marked used, rejects a
second call, also after the per-segment fields moved. -/
theorem stream_single_use_witness :
    streamCall { initialCommunicateState with streamWasCalled := true } =
        .error (.genericError "stream can only be called once.") ∧
    streamCall { { initialCommunicateState with streamWasCalled := true } with
        partialText := [1, 2]
        offsetCompensation := 5
        lastDurationOffset := 9 } =
      .error (.genericError "stream can only be called once.") :=
  ⟨stream_single_use.1 initialCommunicateState
      { initialCommunicateState with streamWasCalled := true } (by decide),
   stream_single_use.2 initialCommunicateState
      { initialCommunicateState with streamWasCalled := true } [1, 2] 5 9 (by decide)⟩

/-- Claim C6, divergence of the code from the claim: with a date header the
platform cannot parse (`new Date` yields NaN rather than throwing, so
`parseRfc2616Date` never returns the `null` the guard checks for), the call
returns normally and the skew becomes NaN instead of failing with
`SkewAdjustmentError` and leaving the skew unchanged.  The no-header case
does fail as claimed. -/
theorem handleClientResponseError_nan_divergence :
    handleClientResponseError (fun _ => none) [("date", "garbage")] initialDRMState 0 =
      .ok ⟨none⟩ ∧
    (⟨none⟩ : DRMState) ≠ initialDRMState ∧
    handleClientResponseError (fun _ => none) [] initialDRMState 0 =
      .error (.skewAdjustment "No server date in headers.") := by
  refine ⟨by decide, by decide, by decide⟩
